import Mathlib

/-!
Verification of the `base_model_chat_bot` repository against its
natural-language specification.

The development shallowly embeds the JavaScript sources
(`src/frontend/components/DynamicForm.js`,
`src/frontend/services/voiceService.js` — a bundle containing the
voice service, the `ApiService` client and the `ENV` configuration —
and `src/unnamed/part_001`, the `VoiceButton`/`VoiceSettings`
components).  JavaScript objects used as string-keyed records are
embedded as association lists; the stateful components are embedded
as explicit state-transition functions; external effects (file
system, network transport, speech engine) are embedded as oracles or
as explicit event traces.
-/

namespace ChatBotApp

/-- A JavaScript value as it occurs in the form data of `DynamicForm.js`:
strings, integers (`parseInt`), fractional numbers (`parseFloat`,
embedded as rationals), booleans, `null`, and nested objects
(string-keyed records, embedded as association lists in insertion
order). `Option Value` with `none` plays the role of `undefined`. -/
inductive Value : Type where
  | vstr  (s : String)
  | vint  (n : Int)
  | vnum  (q : ℚ)
  | vbool (b : Bool)
  | vnull
  | vmap  (m : List (String × Value))

/-- A JavaScript object used as a string-keyed record (a `ValueMap` in
the spec's vocabulary), in insertion order. -/
abbrev ValueMap := List (String × Value)

/-- Property lookup `m[k]`: first binding wins (bindings are kept
unique by `setKey`). `none` is JavaScript's `undefined`. -/
def lookupVM : ValueMap → String → Option Value
  | [], _ => none
  | (k', v') :: rest, k => if k' = k then some v' else lookupVM rest k

/-- The effect of the object spread `{ ...m, [k]: v }` on the bindings
of `m`: the binding for `k` is overwritten in place when present
(JavaScript preserves the original key order), and appended otherwise. -/
def setKey : ValueMap → String → Value → ValueMap
  | [], k, v => [(k, v)]
  | (k', v') :: rest, k, v =>
      if k' = k then (k, v) :: rest else (k', v') :: setKey rest k v

/-- Spreading a `Value` into an object literal, `{ ...value }`:
objects contribute their bindings, strings contribute their indexed
characters (JavaScript spreads strings as `{0: c0, 1: c1, ...}`), and
every other value (numbers, booleans, `null`, `undefined`)
contributes nothing. -/
def spreadValue : Option Value → ValueMap
  | some (.vmap m) => m
  | some (.vstr s) =>
      (s.toList.enum).map (fun p => (toString p.1, Value.vstr (String.mk [p.2])))
  | _ => []

/-- Optional-chained property access `value?.[k]` as used by
`FormField` to read a nested value: descends through objects by key
and through strings by index; scalars have no properties. -/
def getValue : List String → Value → Option Value
  | [], v => some v
  | k :: rest, .vmap m =>
      match lookupVM m k with
      | some v => getValue rest v
      | none => none
  | k :: rest, .vstr s =>
      match lookupVM (spreadValue (some (.vstr s))) k with
      | some v => getValue rest v
      | none => none
  | _ :: _, _ => none

/-- Reading a path from the root form data (`formData[f1]?.[f2]?....`). -/
def getField (vm : ValueMap) (path : List String) : Option Value :=
  getValue path (.vmap vm)

/-- `DynamicForm.handleFieldChange(fieldName, value)`:
`setFormData(prev => ({ ...prev, [fieldName]: value }))`. -/
def handleFieldChange (prev : ValueMap) (fieldName : String) (value : Value) : ValueMap :=
  setKey prev fieldName value

/-- The composite write produced by the `FormField` recursion for a
nested path: each nesting level rebuilds its object as
`{ ...value, [fieldName]: fieldValue }` (`DynamicForm.js` lines
129–131) and the top level lands in `handleFieldChange`.  This is the
spec's `setField(path, value)` as the code realizes it. -/
def setPathVM (vm : ValueMap) : List String → Value → ValueMap
  | [], _ => vm
  | [k], v => setKey vm k v
  | k :: k2 :: rest, v =>
      setKey vm k (.vmap (setPathVM (spreadValue (lookupVM vm k)) (k2 :: rest) v))

/-- `DynamicForm`'s effect on arrival of new `initialData` (lines
167–169): `setFormData(initialData)` — the previous form data is
replaced wholesale by the incoming map. -/
def applyInitialData (_prev : ValueMap) (initialData : ValueMap) : ValueMap :=
  initialData

/-- Modelled from the spec: the key-by-key merge that §4.2 requires for
a partial chat-path update ("a partial update must be merged
key-by-key into the existing ValueMap, not replace it"). No code in
`src/` performs this merge; this definition states the specified
behaviour for comparison with `applyInitialData`. -/
def specMergeUpdate (existing upd : ValueMap) : ValueMap :=
  upd.foldl (fun acc p => setKey acc p.1 p.2) existing

theorem lookupVM_setKey_self (m : ValueMap) (k : String) (v : Value) :
    lookupVM (setKey m k v) k = some v := by
  induction m with
  | nil => simp [setKey, lookupVM]
  | cons hd tl ih =>
      by_cases h : hd.1 = k
      · simp [setKey, h, lookupVM]
      · simp [setKey, h, lookupVM, ih]

/-- C1: evaluation of `DynamicForm`'s chat-path update at the spec's
own example. The form data `{a:1, b:2}` receiving the partial update
`{b:3}` through the `initialData` effect becomes `{b:3}`: the sibling
key `a` is erased, whereas the spec's key-by-key merge yields
`{a:1, b:3}`. -/
theorem chat_update_replaces_not_merges :
    applyInitialData [("a", .vint 1), ("b", .vint 2)] [("b", .vint 3)]
      = [("b", .vint 3)]
    ∧ lookupVM (applyInitialData [("a", .vint 1), ("b", .vint 2)] [("b", .vint 3)]) "a"
      = none
    ∧ specMergeUpdate [("a", .vint 1), ("b", .vint 2)] [("b", .vint 3)]
      = [("a", .vint 1), ("b", .vint 3)] := by
  exact ⟨rfl, rfl, rfl⟩

/-- C4: `setField` followed immediately by a read at the same
(non-empty) path yields exactly the written value, for scalar,
boolean, and nested paths alike. -/
theorem setField_get_same (vm : ValueMap) (p : List String) (v : Value)
    (h : p ≠ []) : getField (setPathVM vm p v) p = some v := by
  induction p generalizing vm with
  | nil => exact absurd rfl h
  | cons k rest ih =>
      cases rest with
      | nil =>
          simp [getField, setPathVM, getValue, lookupVM_setKey_self]
      | cons k2 rest' =>
          have ih' := ih (spreadValue (lookupVM vm k)) (by simp)
          simp only [getField, setPathVM, getValue, lookupVM_setKey_self]
          exact ih'

/-- C4 witness: writing `true` at the nested path
`["outer", "inner"]` of the empty map and reading it back returns
exactly `true`. -/
theorem setField_get_same_witness :
    getField (setPathVM [] ["outer", "inner"] (.vbool true)) ["outer", "inner"]
      = some (.vbool true) :=
  setField_get_same [] ["outer", "inner"] (.vbool true) (by simp)

mutual
/-- A field descriptor as consumed by `DynamicForm.js`: `field.name`,
`field.type` (one of `'string'`, `'integer'`, `'number'`, `'boolean'`,
`'object'`, or anything else for the unsupported branch),
`field.required`, `field.options` (present only for enum fields) and
`field.nested_schema` (present only for `'object'` fields). -/
inductive FieldDescriptor : Type where
  | mk (name : String) (ftype : String) (required : Bool)
       (options : Option (List String)) (nested : Option SchemaDescriptor)

/-- A schema as consumed by `DynamicForm.js`: `schema.title`,
`schema.description` and the ordered `schema.fields`. -/
inductive SchemaDescriptor : Type where
  | mk (title description : Option String) (fields : List FieldDescriptor)
end

def FieldDescriptor.name : FieldDescriptor → String
  | .mk n _ _ _ _ => n

def FieldDescriptor.required : FieldDescriptor → Bool
  | .mk _ _ r _ _ => r

def FieldDescriptor.nested : FieldDescriptor → Option SchemaDescriptor
  | .mk _ _ _ _ ns => ns

def SchemaDescriptor.fields : SchemaDescriptor → List FieldDescriptor
  | .mk _ _ fs => fs

/-- JavaScript falsiness of a form value: `''`, `0`, `false` and
`null` are falsy; non-empty strings, non-zero numbers, `true` and
every object (including `{}`) are truthy. -/
def isFalsyJS : Value → Bool
  | .vstr s => s = ""
  | .vint n => n = 0
  | .vnum q => q = 0
  | .vbool b => !b
  | .vnull => true
  | .vmap _ => false

/-- The strict comparison `v === ''` from `validateForm`. -/
def isEmptyStrJS : Value → Bool
  | .vstr s => s = ""
  | _ => false

/-- The test `!formData[field.name] || formData[field.name] === ''`
from `validateForm` (`DynamicForm.js` lines 195–199): an absent
(`undefined`) value is falsy. -/
def isMissingJS : Option Value → Bool
  | none => true
  | some v => isFalsyJS v || isEmptyStrJS v

/-- `DynamicForm.validateForm` (lines 192–203): walks the top-level
`schema.fields` only, and records `"<name> is required"` under each
required field whose current value fails the truthiness test.  The
`forEach`-built `errors` object is embedded as the ordered list of its
entries. -/
def validateFormErrors (schema : SchemaDescriptor) (formData : ValueMap) :
    List (String × String) :=
  schema.fields.filterMap (fun f =>
    if f.required && isMissingJS (lookupVM formData f.name) then
      some (f.name, f.name ++ " is required")
    else none)

/-- The boolean result of `validateForm`:
`Object.keys(errors).length === 0`. -/
def validateForm (schema : SchemaDescriptor) (formData : ValueMap) : Bool :=
  (validateFormErrors schema formData).isEmpty

/-- The nested map under a value, for descending into children
(an absent or non-object value contributes no children values). -/
def subMapOf : Option Value → ValueMap
  | some (.vmap m) => m
  | _ => []

mutual
/-- Modelled from the spec (§4.2, for comparison with
`validateFormErrors`): the validator the claim describes, which
collects the paths of required fields that are missing at every
reachable nesting level, descending into a nested field's children
whenever that nested field is present or required. -/
def claimValidateField (pre : List String) (vm : ValueMap) :
    FieldDescriptor → List (List String)
  | .mk name _ftype req _opts nested =>
      let path := pre ++ [name]
      let selfMissing :=
        if req && (lookupVM vm name).isNone then [path] else []
      let deeper :=
        match nested with
        | some (.mk _ _ children) =>
            if (lookupVM vm name).isSome || req then
              claimValidateFieldList path (subMapOf (lookupVM vm name)) children
            else []
        | none => []
      selfMissing ++ deeper

/-- Modelled from the spec: `claimValidateField` over a list of
sibling descriptors. -/
def claimValidateFieldList (pre : List String) (vm : ValueMap) :
    List FieldDescriptor → List (List String)
  | [] => []
  | f :: fs => claimValidateField pre vm f ++ claimValidateFieldList pre vm fs
end

/-- Modelled from the spec: `validate(schema, valueMap)` as the claim
states it, over a whole schema. -/
def claimValidate (schema : SchemaDescriptor) (vm : ValueMap) : List (List String) :=
  claimValidateFieldList [] vm schema.fields

/-- A schema with one non-required nested field whose child is
required: used to separate `validateForm` from the claimed
validator. -/
def nestedExSchema : SchemaDescriptor :=
  .mk none none
    [.mk "outer" "object" false none
      (some (.mk none none [.mk "inner" "string" true none none]))]

/-- C2 counterexample: on a schema with a present nested field whose
required child `inner` is missing, `validateForm` reports no error,
while the claimed validator (which descends into present nested
fields) reports the path `["outer", "inner"]`. -/
theorem validateForm_misses_nested_required :
    validateFormErrors nestedExSchema [("outer", .vmap [])] = []
    ∧ claimValidate nestedExSchema [("outer", .vmap [])] = [["outer", "inner"]] :=
  ⟨rfl, rfl⟩

/-- A schema with a single required top-level text field. -/
def oneTextSchema : SchemaDescriptor :=
  .mk none none [.mk "title" "string" true none none]

/-- C2 amended: `validateForm` checks top-level fields only — a field
name is reported exactly when some top-level descriptor with that name
is required and its current value fails the truthiness/empty-string
test; on the flat example schema it reports exactly the one field for
the empty map and nothing after a non-empty value is written there. -/
theorem validateForm_top_level_characterization :
    (∀ (schema : SchemaDescriptor) (vm : ValueMap) (n : String),
      (∃ msg, (n, msg) ∈ validateFormErrors schema vm) ↔
        ∃ f ∈ schema.fields, f.name = n ∧ f.required = true ∧
          isMissingJS (lookupVM vm f.name) = true)
    ∧ validateFormErrors oneTextSchema [] = [("title", "title is required")]
    ∧ validateFormErrors oneTextSchema (setPathVM [] ["title"] (.vstr "hello")) = [] := by
  refine ⟨?_, rfl, rfl⟩
  intro schema vm n
  constructor
  · rintro ⟨msg, hm⟩
    rw [validateFormErrors, List.mem_filterMap] at hm
    obtain ⟨f, hf, hg⟩ := hm
    by_cases hc : (f.required && isMissingJS (lookupVM vm f.name)) = true
    · rw [if_pos hc] at hg
      simp only [Bool.and_eq_true] at hc
      obtain ⟨hb1, hb2⟩ := hc
      exact ⟨f, hf, by injection hg with h; exact (Prod.mk.injEq _ _ _ _ ▸ h).1.symm ▸ rfl,
        hb1, hb2⟩
    · rw [if_neg hc] at hg
      exact absurd hg (by simp)
  · rintro ⟨f, hf, hn, hr, hmiss⟩
    refine ⟨f.name ++ " is required", ?_⟩
    rw [validateFormErrors, List.mem_filterMap]
    exact ⟨f, hf, by rw [hr, hmiss, hn]; rfl⟩

/-- C9: every required field whose stored value is falsy — boolean
`false`, integer `0`, or the empty string — is reported as missing by
`validateForm`, even though a value was explicitly set. -/
theorem required_falsy_reported (schema : SchemaDescriptor) (vm : ValueMap)
    (f : FieldDescriptor) (hf : f ∈ schema.fields) (hr : f.required = true)
    (v : Value) (hv : lookupVM vm f.name = some v) (hfalsy : isFalsyJS v = true) :
    ∃ msg, (f.name, msg) ∈ validateFormErrors schema vm := by
  refine ⟨f.name ++ " is required", ?_⟩
  rw [validateFormErrors, List.mem_filterMap]
  refine ⟨f, hf, ?_⟩
  rw [hv]
  have : isMissingJS (some v) = true := by
    rw [isMissingJS, hfalsy, Bool.true_or]
  rw [this, hr]
  rfl

/-- C9 witness: on a schema with a required boolean field `done` whose
stored value is `false`, `validateForm` reports `done` as missing. -/
theorem required_falsy_reported_witness :
    ∃ msg, (FieldDescriptor.name (.mk "done" "boolean" true none none), msg)
      ∈ validateFormErrors (.mk none none [.mk "done" "boolean" true none none])
          [("done", .vbool false)] :=
  required_falsy_reported (.mk none none [.mk "done" "boolean" true none none])
    [("done", .vbool false)] (.mk "done" "boolean" true none none)
    (List.mem_singleton.mpr rfl) rfl (.vbool false) rfl rfl

/-- The outcome of the Forwarder's single outbound HTTP call: either a
response with a real HTTP status, headers and body text, or a pure
transport failure (connection refused, timeout, DNS failure) with its
diagnostic text. -/
inductive TransportOutcome : Type where
  | response (status : Nat) (headers : List (String × String)) (body : String)
  | failure (diagnostic : String)

/-- The spec's ResultEnvelope (§3): status, headers, body, timing and
success flag. -/
structure ResultEnvelope : Type where
  statusCode : Nat
  headers : List (String × String)
  body : String
  elapsedSeconds : ℚ
  success : Bool

/-- Modelled from the spec: the backend Gateway Forwarder
(`backend/services/api_gateway.py` per `PLANNING.MD`) is not under
`src/`; only its frontend caller is.  Per §4.3 and §7, it never
throws: it is a total function into `ResultEnvelope`, with
`success = false` on transport failure or non-2xx status,
`statusCode` the real HTTP status when one was received and the
sentinel `0` otherwise, and `body` carrying the available diagnostic
text. -/
def forwardGateway (outcome : TransportOutcome) (elapsed : ℚ) : ResultEnvelope :=
  match outcome with
  | .response st hs body =>
      { statusCode := st, headers := hs, body := body, elapsedSeconds := elapsed,
        success := decide (200 ≤ st ∧ st < 300) }
  | .failure diag =>
      { statusCode := 0, headers := [], body := diag, elapsedSeconds := elapsed,
        success := false }

/-- A forwarding invocation counts as failed when the transport failed
outright or the received status is outside 2xx. -/
def TransportOutcome.isFailure : TransportOutcome → Bool
  | .response st _ _ => !decide (200 ≤ st ∧ st < 300)
  | .failure _ => true

/-- The HTTP status actually received, or the sentinel `0` for a pure
transport failure. -/
def TransportOutcome.statusOrSentinel : TransportOutcome → Nat
  | .response st _ _ => st
  | .failure _ => 0

/-- The diagnostic text available for the outcome. -/
def TransportOutcome.diagnostic : TransportOutcome → String
  | .response _ _ body => body
  | .failure d => d

/-- C3: on every failed forwarding outcome — transport failure or
non-2xx status — the Forwarder returns (rather than throws) a
`ResultEnvelope` with `success = false`, `statusCode` the real HTTP
status when one was received and the sentinel `0` otherwise, and the
available diagnostic text as its body. -/
theorem forwarder_failure_envelope (o : TransportOutcome) (e : ℚ)
    (h : o.isFailure = true) :
    (forwardGateway o e).success = false
    ∧ (forwardGateway o e).statusCode = o.statusOrSentinel
    ∧ (forwardGateway o e).body = o.diagnostic := by
  cases o with
  | response st hs body =>
      refine ⟨?_, rfl, rfl⟩
      simp only [TransportOutcome.isFailure, Bool.not_eq_true'] at h
      simp [forwardGateway, h]
  | failure d => exact ⟨rfl, rfl, rfl⟩

/-- C3 witness: a simulated connection-refused outcome yields an
envelope with `success = false`, the sentinel status `0`, and the
diagnostic body. -/
theorem forwarder_failure_envelope_witness :
    (forwardGateway (.failure "connection refused") 0).success = false
    ∧ (forwardGateway (.failure "connection refused") 0).statusCode
        = TransportOutcome.statusOrSentinel (.failure "connection refused")
    ∧ (forwardGateway (.failure "connection refused") 0).body
        = TransportOutcome.diagnostic (.failure "connection refused") :=
  forwarder_failure_envelope (.failure "connection refused") 0 rfl

/-- The JavaScript `String.prototype.trim()`: removes whitespace from
both ends of the string (defined over the character list so that it
is kernel-executable). -/
def jsTrim (s : String) : String :=
  String.mk
    (((s.toList.dropWhile Char.isWhitespace).reverse.dropWhile
        Char.isWhitespace).reverse)

/-- The request body `ApiService.forwardToExternalApi` posts to the
backend `/forward` endpoint. -/
structure ForwardRequest : Type where
  api_url : String
  method : String
  data : ValueMap
  headers : List (String × String)
  timeout : ℚ

/-- `ApiService.forwardToExternalApi` (`voiceService.js` bundle, the
`ApiService` section): builds one request object and performs a single
`apiClient.post('/forward', …)`; a rejected promise is wrapped in
`"Failed to forward to external API: …"` and rethrown.  The embedding
takes the transport as an oracle and returns the result together with
the list of outbound calls issued during the invocation. -/
def forwardToExternalApi (transport : ForwardRequest → Except String Value)
    (apiUrl method : String) (data : ValueMap)
    (headers : List (String × String)) (timeout : ℚ) :
    Except String Value × List ForwardRequest :=
  let req : ForwardRequest := ⟨apiUrl, method, data, headers, timeout⟩
  match transport req with
  | .ok v => (.ok v, [req])
  | .error e => (.error ("Failed to forward to external API: " ++ e), [req])

/-- C5: every invocation of the forwarding call issues exactly one
outbound call — whatever the transport does, the call list of one
invocation is the single request built from its arguments; there is no
automatic retry. -/
theorem forward_exactly_one_call (transport : ForwardRequest → Except String Value)
    (apiUrl method : String) (data : ValueMap)
    (headers : List (String × String)) (timeout : ℚ) :
    (forwardToExternalApi transport apiUrl method data headers timeout).2
      = [⟨apiUrl, method, data, headers, timeout⟩] := by
  cases h : transport ⟨apiUrl, method, data, headers, timeout⟩ <;>
    simp [forwardToExternalApi, h]

/-- The external effects `VoiceService.transcribeAudio` waits on: the
result of `FileSystem.readAsStringAsync` and the result of the
`fetch` to the transcription endpoint (a network error, or a status
code with the response text). -/
structure TranscribeEnv : Type where
  readResult : Except String String
  fetchResult : Except String (Nat × String)

/-- A file-system side effect of the voice pipeline. -/
inductive FsEvent : Type where
  | deleteFile (uri : String)

/-- `VoiceService.transcribeAudio(audioUri)` (`voiceService.js` lines
137–201): rejects a missing URI; reads the audio file; fails if the
API key is unconfigured; posts to the Whisper endpoint; treats a
non-ok response as failure; trims and returns the transcription.  The
success path deletes the audio file, and the catch block deletes it
again (idempotently) on every error path once a URI was provided.
The embedding returns the result together with the trace of
`FileSystem.deleteAsync` calls. -/
def transcribeAudio (env : TranscribeEnv) (apiKey : String)
    (audioUri : Option String) : Except String String × List FsEvent :=
  match audioUri with
  | none => (.error "No audio URI provided", [])
  | some uri =>
    match env.readResult with
    | .error e => (.error e, [.deleteFile uri])
    | .ok _audioFile =>
      if apiKey = "" then
        (.error "OpenAI API key not configured. Please set EXPO_PUBLIC_OPENAI_API_KEY in your environment.",
          [.deleteFile uri])
      else
        match env.fetchResult with
        | .error e => (.error e, [.deleteFile uri])
        | .ok (status, text) =>
          if !decide (200 ≤ status ∧ status < 300) then
            (.error ("Transcription failed: " ++ toString status), [.deleteFile uri])
          else
            (.ok (jsTrim text), [.deleteFile uri])

/-- C6: on every exit path of the transcription pipeline — success,
transcription failure, or I/O failure — the temporary recorded-audio
file acquired for the request is released: whatever the environment
does, the trace of one invocation on an acquired URI is exactly one
deletion of that URI. -/
theorem transcribe_always_releases (env : TranscribeEnv) (apiKey : String)
    (uri : String) :
    (transcribeAudio env apiKey (some uri)).2 = [.deleteFile uri] := by
  unfold transcribeAudio
  cases env.readResult with
  | error e => rfl
  | ok f =>
      by_cases hk : apiKey = ""
      · simp [hk]
      · cases hfetch : env.fetchResult with
        | error e => simp [hk, hfetch]
        | ok p =>
            by_cases hs : (200 ≤ p.1 ∧ p.1 < 300)
            · simp [hk, hfetch, hs]
            · simp [hk, hfetch, hs]

/-- The speech-synthesis state of `VoiceService`: whether a synthesis
is currently playing (`this.isPlaying`). -/
structure SpeakState : Type where
  isPlaying : Bool

/-- A speech-engine side effect: `Speech.stop()` or
`Speech.speak(...)`. -/
inductive SpeechEvent : Type where
  | stop
  | start

/-- `VoiceService.speak(text)` (`voiceService.js` lines 206–250):
empty or whitespace-only text is a no-op; otherwise, if a synthesis is
in progress (`this.isPlaying`), `Speech.stop()` is awaited (its
`onStopped` callback clears `isPlaying`) before `Speech.speak` starts
the new synthesis (its `onStart` callback sets `isPlaying`).  The
embedding returns the new state and the ordered speech-engine calls. -/
def speak (s : SpeakState) (text : String) : SpeakState × List SpeechEvent :=
  if (jsTrim text).length = 0 then (s, [])
  else if s.isPlaying then
    (⟨true⟩, [SpeechEvent.stop, SpeechEvent.start])
  else
    (⟨true⟩, [SpeechEvent.start])

/-- The number of syntheses playing after a list of speech-engine
calls, starting from `c` playing: `Speech.speak` starts one,
`Speech.stop()` stops everything in progress. -/
def playingAfter : Nat → List SpeechEvent → Nat
  | c, [] => c
  | _, .stop :: evs => playingAfter 0 evs
  | c, .start :: evs => playingAfter (c + 1) evs

/-- The number of syntheses playing in a `SpeakState`. -/
def activeCount (s : SpeakState) : Nat := if s.isPlaying then 1 else 0

/-- C7: when `speak` is invoked while a synthesis is in progress (with
non-empty text), the in-progress synthesis is stopped before the new
one starts — the engine trace is exactly `[stop, start]` — and at no
point of the trace are two syntheses playing simultaneously. -/
theorem speak_interrupts_current (s : SpeakState) (text : String)
    (hp : s.isPlaying = true) (ht : (jsTrim text).length ≠ 0) :
    (speak s text).2 = [SpeechEvent.stop, SpeechEvent.start]
    ∧ ∀ n, playingAfter (activeCount s) (((speak s text).2).take n) ≤ 1 := by
  have hs : speak s text = (⟨true⟩, [SpeechEvent.stop, SpeechEvent.start]) := by
    simp [speak, ht, hp]
  refine ⟨by rw [hs], ?_⟩
  intro n
  rw [hs]
  rcases n with _ | _ | n <;>
    simp [playingAfter, activeCount, hp, List.take]

/-- C7 witness: invoking `speak` with the text `"hello"` while playing
yields the trace `[stop, start]`, with at most one synthesis playing
throughout. -/
theorem speak_interrupts_current_witness :
    (speak ⟨true⟩ "hello").2 = [SpeechEvent.stop, SpeechEvent.start]
    ∧ ∀ n, playingAfter (activeCount ⟨true⟩) (((speak ⟨true⟩ "hello").2).take n) ≤ 1 :=
  speak_interrupts_current ⟨true⟩ "hello" rfl (by decide)

/-- `ENV.MAX_RECORDING_TIME` (`env.js`):
`parseInt(process.env.EXPO_PUBLIC_MAX_RECORDING_TIME) || 60000`,
in milliseconds.  `none` stands for an unset or unparsable variable
(`parseInt` yields `NaN`, which is falsy), and a parsed `0` is falsy
too; both fall back to the 60 000 ms default. -/
def maxRecordingTimeDefault (envVal : Option Nat) : Nat :=
  match envVal with
  | some n => if n = 0 then 60000 else n
  | none => 60000

/-- The recording-relevant state of `VoiceButton`
(`src/unnamed/part_001`): whether a recording is in progress, and the
remaining milliseconds of the armed `setTimeout` from
`startMaxTimeTimer` (if armed). -/
structure RecState : Type where
  isRecording : Bool
  maxTimer : Option Nat

/-- `handleStartRecording` followed by the `isRecording` effect
(lines 486–495): recording starts and `startMaxTimeTimer` arms a
`setTimeout(handleStopRecording, maxRecordingTime)`. -/
def startRecordingWithTimer (maxRecordingTime : Nat) : RecState :=
  ⟨true, some maxRecordingTime⟩

/-- One millisecond of elapsed time: an armed timeout of `n` ms fires
after `n` ms (a `0` ms timeout fires on the next turn), and firing
runs `handleStopRecording`, which stops the recording and clears the
timers. -/
def tick (s : RecState) : RecState :=
  match s.maxTimer with
  | none => s
  | some n => if n ≤ 1 then ⟨false, none⟩ else ⟨s.isRecording, some (n - 1)⟩

/-- `k` milliseconds of elapsed time. -/
def runTicks (s : RecState) : Nat → RecState
  | 0 => s
  | n + 1 => runTicks (tick s) n

theorem runTicks_stopped : ∀ k, runTicks ⟨false, none⟩ k = ⟨false, none⟩ := by
  intro k
  induction k with
  | zero => rfl
  | succ n ih => simpa [runTicks, tick] using ih

theorem runTicks_add (s : RecState) (a b : Nat) :
    runTicks s (a + b) = runTicks (runTicks s a) b := by
  induction a generalizing s with
  | zero => rw [Nat.zero_add]; rfl
  | succ n ih =>
      have : n + 1 + b = (n + b) + 1 := by omega
      rw [this, runTicks, runTicks, ih]

theorem timer_fires (m : Nat) (hm : 1 ≤ m) :
    runTicks ⟨true, some m⟩ m = ⟨false, none⟩ := by
  induction m with
  | zero => omega
  | succ n ih =>
      cases n with
      | zero => rfl
      | succ n' =>
          have h1 : ¬ (n' + 1 + 1 ≤ 1) := by omega
          rw [runTicks]
          simp only [tick, h1, if_false]
          exact ih (by omega)

/-- C8: the recording duration is bounded and the bound is enforced by
the caller's timer: for any configured bound, once `max bound 1`
milliseconds have elapsed after the recording started, the recording
has been stopped (by `VoiceButton`'s own `startMaxTimeTimer`
timeout), and with the environment variable unset the bound defaults
to 60 000 ms (60 seconds). -/
theorem recording_duration_bounded (m k : Nat) (h : max m 1 ≤ k) :
    (runTicks (startRecordingWithTimer m) k).isRecording = false
    ∧ maxRecordingTimeDefault none = 60000 := by
  refine ⟨?_, rfl⟩
  have hfire : runTicks (startRecordingWithTimer m) (max m 1) = ⟨false, none⟩ := by
    cases m with
    | zero => rfl
    | succ n =>
        have : max (n + 1) 1 = n + 1 := by omega
        rw [this]
        exact timer_fires (n + 1) (by omega)
  have hk : k = max m 1 + (k - max m 1) := by omega
  rw [hk, runTicks_add, hfire, runTicks_stopped]

/-- C8 witness: with the default 60 000 ms bound, 60 000 ms after the
recording started it is no longer recording. -/
theorem recording_duration_bounded_witness :
    (runTicks (startRecordingWithTimer (maxRecordingTimeDefault none)) 60000).isRecording
      = false
    ∧ maxRecordingTimeDefault none = 60000 :=
  recording_duration_bounded (maxRecordingTimeDefault none) 60000 (by decide)

/-- `Math.max(0.1, Math.min(2.0, rate))` from
`VoiceService.setSpeechRate`. -/
def clampRate (q : ℚ) : ℚ := max (1/10) (min 2 q)

/-- `Math.max(0.5, Math.min(2.0, pitch))` from
`VoiceService.setSpeechPitch`. -/
def clampPitch (q : ℚ) : ℚ := max (1/2) (min 2 q)

/-- The preference state of `VoiceService`: `this.speechRate`,
`this.speechPitch`, and the `voiceServicePreferences` record in
`AsyncStorage` (written only by `saveUserPreferences`). -/
structure VoicePrefs : Type where
  speechRate : ℚ
  speechPitch : ℚ
  stored : Option (ℚ × ℚ)

/-- The operations of `VoiceService` that touch the speech
preferences. -/
inductive PrefOp : Type where
  | setRate (q : ℚ)
  | setPitch (q : ℚ)
  | load

/-- One preference operation. `setSpeechRate`/`setSpeechPitch` clamp
the argument and then call `saveUserPreferences`, which writes both
current values to storage; `loadUserPreferences` reads the stored
record back if present, replacing a falsy (zero) component by `1.0`. -/
def stepPref (s : VoicePrefs) : PrefOp → VoicePrefs
  | .setRate q =>
      let r := clampRate q
      ⟨r, s.speechPitch, some (r, s.speechPitch)⟩
  | .setPitch q =>
      let p := clampPitch q
      ⟨s.speechRate, p, some (s.speechRate, p)⟩
  | .load =>
      match s.stored with
      | none => s
      | some (r, p) => ⟨if r = 0 then 1 else r, if p = 0 then 1 else p, s.stored⟩

/-- A sequence of preference operations. -/
def runPrefs (s : VoicePrefs) : List PrefOp → VoicePrefs
  | [] => s
  | op :: ops => runPrefs (stepPref s op) ops

/-- The claimed range of the stored speech rate. -/
def RateInRange (r : ℚ) : Prop := 1/10 ≤ r ∧ r ≤ 2

/-- The claimed range of the stored speech pitch. -/
def PitchInRange (p : ℚ) : Prop := 1/2 ≤ p ∧ p ≤ 2

/-- The speech-preference invariant: rate in [0.1, 2.0], pitch in
[0.5, 2.0], and any stored record in range as well. -/
def PrefInv (s : VoicePrefs) : Prop :=
  RateInRange s.speechRate ∧ PitchInRange s.speechPitch ∧
  ∀ r p, s.stored = some (r, p) → RateInRange r ∧ PitchInRange p

theorem clampRate_mem (q : ℚ) : RateInRange (clampRate q) := by
  constructor
  · exact le_max_left _ _
  · exact max_le (by norm_num) (min_le_left _ _)

theorem clampPitch_mem (q : ℚ) : PitchInRange (clampPitch q) := by
  constructor
  · exact le_max_left _ _
  · exact max_le (by norm_num) (min_le_left _ _)

theorem stepPref_inv (s : VoicePrefs) (hs : PrefInv s) (op : PrefOp) :
    PrefInv (stepPref s op) := by
  obtain ⟨hr, hp, hst⟩ := hs
  cases op with
  | setRate q =>
      exact ⟨clampRate_mem q, hp, by
        intro r p hrp
        simp only [stepPref] at hrp
        injection hrp with h
        obtain ⟨h1, h2⟩ := Prod.mk.injEq _ _ _ _ ▸ h
        exact ⟨h1 ▸ clampRate_mem q, h2 ▸ hp⟩⟩
  | setPitch q =>
      exact ⟨hr, clampPitch_mem q, by
        intro r p hrp
        simp only [stepPref] at hrp
        injection hrp with h
        obtain ⟨h1, h2⟩ := Prod.mk.injEq _ _ _ _ ▸ h
        exact ⟨h1 ▸ hr, h2 ▸ clampPitch_mem q⟩⟩
  | load =>
      cases hcase : s.stored with
      | none => simpa [stepPref, hcase] using ⟨hr, hp, hst⟩
      | some rp =>
          obtain ⟨r, p⟩ := rp
          obtain ⟨hr', hp'⟩ := hst r p hcase
          have hrne : r ≠ 0 := by
            intro h0
            rw [h0] at hr'
            exact absurd hr'.1 (by norm_num)
          have hpne : p ≠ 0 := by
            intro h0
            rw [h0] at hp'
            exact absurd hp'.1 (by norm_num)
          refine ⟨?_, ?_, ?_⟩
          · simpa [stepPref, hcase, hrne] using hr'
          · simpa [stepPref, hcase, hpne] using hp'
          · intro r' p' hrp
            simp only [stepPref, hcase] at hrp
            exact hst r' p' (hcase.trans hrp)

/-- C10: the stored speech parameters are clamped: after any call to
`setSpeechRate` the rate lies in [0.1, 2.0] and after any call to
`setSpeechPitch` the pitch lies in [0.5, 2.0], for any rational
argument; and the in-range invariant (rate, pitch, and the saved
preference record) is preserved by every sequence of preference
operations, so it holds in every reachable state of the service. -/
theorem speech_params_clamped_invariant :
    (∀ (s : VoicePrefs) (q : ℚ), RateInRange ((stepPref s (.setRate q)).speechRate))
    ∧ (∀ (s : VoicePrefs) (q : ℚ), PitchInRange ((stepPref s (.setPitch q)).speechPitch))
    ∧ (∀ (s : VoicePrefs), PrefInv s → ∀ ops, PrefInv (runPrefs s ops)) := by
  refine ⟨fun s q => clampRate_mem q, fun s q => clampPitch_mem q, ?_⟩
  intro s hs ops
  induction ops generalizing s with
  | nil => exact hs
  | cons op ops ih => exact ih _ (stepPref_inv s hs op)

/-- C10 witness: starting from the validated default state (rate 1.0,
pitch 1.0, nothing stored) and calling `setSpeechRate(5)`, the
invariant still holds — the stored rate was clamped into range. -/
theorem speech_params_clamped_invariant_witness :
    PrefInv (runPrefs ⟨1, 1, none⟩ [.setRate 5]) :=
  speech_params_clamped_invariant.2.2 ⟨1, 1, none⟩
    ⟨⟨by norm_num, by norm_num⟩, ⟨by norm_num, by norm_num⟩,
      by intro r p h; cases h⟩ [.setRate 5]

end ChatBotApp
